import Mathlib

/-!
Shallow embedding of the SEG-Y metadata-extraction pipeline
(`segy_handler.py`, `segy_info_extractor.py`, `file_handler.py`).

Trace-header values are modelled as rationals (the headers are machine
integers; all derived statistics are exact here), a pandas DataFrame as an
ordered association list of named columns, and the external decoding
library (segyio / segysak) as explicit inputs: the scan result, the scrape
result, the outcome of an `open` call, and the binary-header reader are
parameters of the embedded functions.
-/

/-! ## List arithmetic helpers (pandas/numpy aggregates over a column) -/

def listSum : List ℚ → ℚ
  | [] => 0
  | x :: xs => x + listSum xs

/-- Mean of a list of rationals; for the empty list this is `0/0 = 0` in
Lean, so every use below guards the empty case explicitly where numpy or
pandas would produce `nan`. -/
def listMean (l : List ℚ) : ℚ := listSum l / (l.length : ℚ)

/-- Population variance, as `np.std(l) ** 2`: the mean squared deviation
from the mean. `np.std(l) != 0` is equivalent to `listVar l ≠ 0` for a
nonempty `l`. -/
def listVar (l : List ℚ) : ℚ :=
  listMean (l.map (fun x => (x - listMean l) ^ 2))

/-- `pd.Series(l).diff()` without its leading `NaN`: the successive
differences `l[i+1] - l[i]`. -/
def consecDiffs (l : List ℚ) : List ℚ :=
  List.zipWith (fun a b => a - b) l.tail l

/-! ## Python string membership (`sub in s`) -/

def charsPre : List Char → List Char → Bool
  | [], _ => true
  | _ :: _, [] => false
  | a :: as, b :: bs => a = b && charsPre as bs

def charsSub (p : List Char) : List Char → Bool
  | [] => charsPre p []
  | c :: rest => charsPre p (c :: rest) || charsSub p rest

/-- Python's substring test `sub in s`. -/
def strContains (sub s : String) : Bool := charsSub sub.data s.data

/-! ## Python values and `format_number` -/

/-- The Python values that flow through `SegyInfoExtractor.format_number`:
floats, ints, strings, and anything else (passed through unchanged). -/
inductive PyVal where
  | float (q : ℚ)
  | int (z : ℤ)
  | str (s : String)
  | other
deriving DecidableEq

/-- Python `s.rstrip(c)` for a single character. -/
def rstripChar (c : Char) (s : String) : String :=
  String.mk ((s.data.reverse.dropWhile (fun a => a = c)).reverse)

/-- Round to the nearest integer, ties to even: the rounding used by
Python's fixed-point float formatting. -/
def roundHalfEven (q : ℚ) : ℤ :=
  let f := ⌊q⌋
  let r := q - (f : ℚ)
  if r < 1 / 2 then f
  else if r > 1 / 2 then f + 1
  else if f % 2 = 0 then f else f + 1

def twoDigits (n : ℕ) : String :=
  (if n < 10 then "0" else "") ++ toString n

/-- Python `f"{float(value):.2f}"`: the value rendered with exactly two
decimal places. -/
def renderTwoDec (q : ℚ) : String :=
  let c := roundHalfEven (100 * q)
  let sign := if q < 0 then "-" else ""
  sign ++ toString (c.natAbs / 100) ++ "." ++ twoDigits (c.natAbs % 100)

/-- The float arm of `format_number`:
`f"{float(value):.2f}".rstrip('0').rstrip('.')`. -/
def format_float (q : ℚ) : String :=
  rstripChar '.' (rstripChar '0' (renderTwoDec q))

/-- `SegyInfoExtractor.format_number` (segy_info_extractor.py line 53):
floats render with two decimals then strip trailing zeros and a trailing
decimal point; ints stay ints; everything else passes through. -/
def format_number : PyVal → PyVal
  | .float q => .str (format_float q)
  | .int z => .int z
  | v => v

/-! ## The header table and `get_trace_header_value` -/

/-- A pandas DataFrame of trace headers: named columns in order, one entry
per trace. -/
abbrev DataFrameQ := List (String × List ℚ)

/-- `len(df)`: the number of rows (every column has the same length in a
well-formed frame). -/
def dfNRows : DataFrameQ → ℕ
  | [] => 0
  | c :: _ => c.2.length

/-- `SegyInfoExtractor.get_trace_header_value` (line 95): the column when
present, otherwise `np.zeros(len(self.trace_headers))`. -/
def get_trace_header_value (t : DataFrameQ) (key : String) : List ℚ :=
  match t.lookup key with
  | some col => col
  | none => List.replicate (dfNRows t) 0

/-! ## `read_segy_headers` -/

/-- pandas column assignment `df[name] = v`: overwrites the column in
place when it exists, otherwise appends it on the right. -/
def dfAssign (t : DataFrameQ) (name : String) (v : List ℚ) : DataFrameQ :=
  if name ∈ t.map Prod.fst then
    t.map (fun c => if c.1 = name then (c.1, v) else c)
  else t ++ [(name, v)]

/-- `reset_index` then `df.index` as values: the column `0, 1, ...,
n - 1`. -/
def indexColumn (n : ℕ) : List ℚ :=
  (List.range n).map (Nat.cast : ℕ → ℚ)

/-- `SegyHandler.read_segy_headers` (segy_handler.py line 104). The
external library calls are inputs: `scan` is `segy_header_scan`'s result
(field name and scanned mean per field) and `scraped` is
`segy_header_scrape`'s full per-trace table. The code keeps the columns of
the fields whose scanned mean is non-zero
(`trace_headers_df[scan[scan["mean"] != 0].index]`), resets the row index
and stores it as the new column `trace_index`. -/
def read_segy_headers (scan : List (String × ℚ)) (scraped : DataFrameQ) :
    DataFrameQ :=
  let kept := (scan.filter (fun e => decide (e.2 ≠ 0))).map
    (fun e => (e.1, (scraped.lookup e.1).getD []))
  dfAssign kept "trace_index" (indexColumn (dfNRows scraped))

/-! ## Acquisition info -/

/-- `pd.Series(l).groupby(l).size()` up to group order: the multiplicity
of each distinct value. -/
def groupSizes (l : List ℚ) : List ℕ :=
  l.dedup.map (fun v => l.count v)

def natListMax : List ℕ → ℕ
  | [] => 0
  | x :: xs => xs.foldl Nat.max x

def natListMin : List ℕ → ℕ
  | [] => 0
  | x :: xs => xs.foldl Nat.min x

/-- The branch condition `np.std(cdp_values) != 0` of
`extract_acquisition_info`. `np.std([])` is `nan`, and in Python
`nan != 0` is true, so the empty column takes the non-sentinel branch. -/
def npStdNonzero (l : List ℚ) : Bool :=
  if l.isEmpty then true
  else decide (listVar l ≠ 0)

structure AcqInfo where
  average_fold : PyVal
  maximum_fold : PyVal
  minimum_fold : PyVal
deriving DecidableEq

/-- `SegyInfoExtractor.extract_acquisition_info` (line 157), fold metrics
only (the inline/crossline spacing of the 3D case reads other columns and
is not needed for the fold claims). When the CDP column is empty the
pandas aggregates of the empty fold series are `nan`, which
`format_number` renders as the string `"nan"`. -/
def extract_acquisition_info (t : DataFrameQ) : AcqInfo :=
  let cdp := get_trace_header_value t "CDP"
  if npStdNonzero cdp then
    let fold := groupSizes cdp
    { average_fold := if fold.isEmpty then .str "nan"
        else format_number (.float (listMean (fold.map (Nat.cast : ℕ → ℚ))))
      maximum_fold := if fold.isEmpty then .str "nan"
        else format_number (.int (natListMax fold))
      minimum_fold := if fold.isEmpty then .str "nan"
        else format_number (.int (natListMin fold)) }
  else
    { average_fold := .str "Not applicable"
      maximum_fold := .str "Not applicable"
      minimum_fold := .str "Not applicable" }

/-! ## Plot direction (a field of `extract_basic_info`) -/

/-- The condition `pd.Series(...).diff().mean() > 0`: with fewer than two
rows there are no differences, the mean is `nan`, and `nan > 0` is false
in Python. -/
def diffMeanPos (l : List ℚ) : Bool :=
  let d := consecDiffs l
  if d.isEmpty then false
  else decide (0 < listMean d)

/-- The `plot_direction` entry of `SegyInfoExtractor.extract_basic_info`
(line 109): `"LR" if pd.Series(sourceX).diff().mean() > 0 else "RL"`. -/
def plot_direction (t : DataFrameQ) : String :=
  if diffMeanPos (get_trace_header_value t "SourceX") then "LR" else "RL"

/-! ## Scaling factor -/

/-- `pd.Series(l).mean()`: `none` models the `nan` produced for an empty
series. -/
def seriesMean (l : List ℚ) : Option ℚ :=
  if l.isEmpty then none else some (listMean l)

/-- Python `value != 0` on the values `format_number` can return: a
string never equals the int `0` in Python. -/
def pyNeZero : PyVal → Bool
  | .int z => decide (z ≠ 0)
  | .float q => decide (q ≠ 0)
  | .str _ => true
  | .other => true

/-- `SegyInfoExtractor.extract_scaling_factor` (line 253):
`scalar = mean(SourceGroupScalar)`, then `scalar = format_number(scalar)`
(the mean is a float, so this always yields a string; `format_number` of
`nan` is the string `"nan"`), then `return scalar if scalar != 0 else 1`. -/
def extract_scaling_factor (t : DataFrameQ) : PyVal :=
  let scalar :=
    match seriesMean (get_trace_header_value t "SourceGroupScalar") with
    | some q => format_number (.float q)
    | none => .str "nan"
  if pyNeZero scalar then scalar else .int 1

/-! ## Geometry classification (`SegyInfoExtractor.__enter__`) -/

/-- The outcome of a `segyio.open` call, which is external: it succeeds
with a handle, raises a `RuntimeError`, or raises some other exception. -/
inductive OpenOutcome where
  | ok (handle : ℕ)
  | runtimeError (msg : String)
  | otherError (msg : String)
deriving DecidableEq

inductive PyExc where
  | runtimeError (msg : String)
  | otherError (msg : String)
deriving DecidableEq

/-- The state `__enter__` leaves behind: the open handle and the `is_3d`
classification. -/
structure GeomOpen where
  is_3d : Bool
  handle : ℕ
deriving DecidableEq

/-- `SegyInfoExtractor.__enter__` (segy_info_extractor.py line 37):
open with `ignore_geometry=False` (strict); on success `is_3d = True`.
A `RuntimeError` whose text contains "unable to find sorting" triggers a
relaxed reopen (`ignore_geometry=True`) with `is_3d = False`; any other
exception propagates (the `except` clause only catches `RuntimeError`,
and re-raises one without the signature). The two open outcomes are the
inputs `strictOpen` and `relaxedOpen`. -/
def enter_extractor (strictOpen relaxedOpen : OpenOutcome) :
    Except PyExc GeomOpen :=
  match strictOpen with
  | .ok h => .ok { is_3d := true, handle := h }
  | .runtimeError msg =>
    if strContains "unable to find sorting" msg then
      match relaxedOpen with
      | .ok h => .ok { is_3d := false, handle := h }
      | .runtimeError m => .error (.runtimeError m)
      | .otherError m => .error (.otherError m)
    else .error (.runtimeError msg)
  | .otherError msg => .error (.otherError msg)

/-! ## Logical-name resolution and `process_segy_file` -/

/-- `SegyHandler.get_segy_base_name` (segy_handler.py line 124): the
first name of `available_segy_files` that is a substring of
`current_file`; the code raises `ValueError` when none matches, modelled
as `none`. -/
def get_segy_base_name : List String → String → Option String
  | [], _ => none
  | n :: rest, cur =>
    if strContains n cur then some n else get_segy_base_name rest cur

inductive PyErr where
  | valueError (msg : String)
deriving DecidableEq

/-- How `process_segy_file` reached the statistics call. -/
inductive ProcessOutcome where
  | statsAfterExtract
  | statsFromCache
deriving DecidableEq

/-- `SegyHandler.process_segy_file` (segy_handler.py line 23): resolve
the base name; if the parquet header cache for `current_file` is missing,
extract headers only when `current_file` equals its base name, otherwise
raise `ValueError`; finally delegate to `get_seismic_statistics`.
`parquetExists` is the external file-system check. -/
def process_segy_file (registry : List String) (parquetExists : String → Bool)
    (cur : String) : Except PyErr ProcessOutcome :=
  match get_segy_base_name registry cur with
  | none =>
    .error (.valueError ("No base SEG-Y file matching '" ++ cur ++ "' found."))
  | some base =>
    if parquetExists cur then .ok .statsFromCache
    else if cur = base then .ok .statsAfterExtract
    else .error (.valueError ("Parquet file for " ++ cur ++ " missing."))

/-! ## The JSON statistics cache (`get_seismic_statistics`) -/

/-- One persisted statistics entry: `{"columns": ..., "infos": ...,
"scalco": ...}`. -/
structure StatsEntry where
  columns : List String
  infos : String
  scalco : PyVal
deriving DecidableEq

/-- The external world of a statistics computation: the columns of the
parquet header cache and what `get_segy_information` (which opens and
decodes the binary file) would produce for a given logical name. -/
structure SegyEnv where
  parquetCols : String → List String
  segyInfo : String → String
  segyScalar : String → PyVal

/-- The persistent state: the JSON files under `metadata/` keyed by
logical name, plus a count of binary-decode passes performed. -/
structure CacheState where
  jsonStore : List (String × StatsEntry)
  decodeCount : ℕ
deriving DecidableEq

/-- The column filter of `get_seismic_statistics` (line 139):
`[col for col in columns if col.lower() not in
("amplitude", "amplitudes", "trace_index")]`. -/
def filter_stat_columns (cols : List String) : List String :=
  cols.filter (fun c =>
    !(c.toLower = "amplitude" || c.toLower = "amplitudes" ||
      c.toLower = "trace_index"))

/-- `SegyHandler.get_seismic_statistics` (segy_handler.py line 131): load
`{current_file}.json`; if it exists return it as is. Otherwise derive the
column list from the parquet cache, run the extractor (one binary decode),
persist the entry under `current_file` and return it. -/
def get_seismic_statistics (env : SegyEnv) (st : CacheState) (cur : String) :
    StatsEntry × CacheState :=
  match st.jsonStore.lookup cur with
  | some entry => (entry, st)
  | none =>
    let entry : StatsEntry :=
      { columns := filter_stat_columns (env.parquetCols cur)
        infos := env.segyInfo cur
        scalco := env.segyScalar cur }
    (entry, { jsonStore := (cur, entry) :: st.jsonStore
              decodeCount := st.decodeCount + 1 })

/-! ## Binary header extraction -/

/-- The `NAMES_EN` translation table of segy_info_extractor.py line 7. -/
def NAMES_EN : List (String × String) :=
  [("Interval", "sampling_rate"), ("Samples", "num_samples"),
   ("Format", "data_format"), ("MeasurementSystem", "measurement_code"),
   ("SEGYRevision", "segy_revision"),
   ("SEGYRevisionMinor", "segy_revision_minor"),
   ("LineNumber", "line_number")]

/-- `NAMES_EN.get(field_name, field_name)`. -/
def namesEn (field : String) : String :=
  (NAMES_EN.lookup field).getD field

/-- Python `field_name.startswith("_")`. -/
def startsUnderscore (s : String) : Bool :=
  match s.data with
  | [] => false
  | c :: _ => c = '_'

/-- The body of the loop of `extract_binary_header_info` (line 68) for
one identifier. `binRead` is the external read
`self.segyio_file.bin[getattr(segyio.BinField, field_name)]`; `none`
models the exception path (caught and skipped). For `"Interval"` the
value becomes `format_number(value / 1000)` — a float true-division then
a string — so the subsequent `value not in [None, 0]` test is always true
for it; for every other identifier an integer `0` is filtered out. -/
def readBinField (binRead : String → Option ℤ) (fieldName : String) :
    Option (String × PyVal) :=
  if startsUnderscore fieldName then none
  else
    match binRead fieldName with
    | none => none
    | some v =>
      if fieldName = "Interval" then
        some (namesEn fieldName, format_number (.float ((v : ℚ) / 1000)))
      else if v = 0 then none
      else some (namesEn fieldName, .int v)

/-- `SegyInfoExtractor.extract_binary_header_info` (line 61): iterate
over `dir(segyio.BinField)` — the identifier list `dirFields` exposed at
runtime by the external library — skipping dunder/private names, keep the
readable informative fields renamed through `NAMES_EN`, and finally set
`data_type` from the geometry classification. -/
def extract_binary_header_info (dirFields : List String)
    (binRead : String → Option ℤ) (is3d : Bool) : List (String × PyVal) :=
  (dirFields.filterMap (readBinField binRead)) ++
    [("data_type", .str (if is3d then "3D" else "2D"))]

/-! ## Theorems -/

/-- C7: `format_number` renders floating values with two decimal places
then strips trailing zeros and a trailing decimal point, renders integer
values as plain integers, passes all other values through unchanged, and
is idempotent. -/
theorem format_number_spec :
    (∀ q, format_number (.float q) =
      .str (rstripChar '.' (rstripChar '0' (renderTwoDec q))))
    ∧ (∀ z, format_number (.int z) = .int z)
    ∧ (∀ s, format_number (.str s) = .str s)
    ∧ format_number .other = .other
    ∧ (∀ v, format_number (format_number v) = format_number v) := by
  refine ⟨fun q => rfl, fun z => rfl, fun s => rfl, rfl, fun v => ?_⟩
  cases v <;> rfl

/-- C10: when a requested trace-header column is absent from the loaded
table, `get_trace_header_value` returns an all-zero series whose length is
the number of rows, so the downstream statistics (here shown for the
acquisition ones, which read only this accessor) are computed over zeros
rather than failing. -/
theorem get_trace_header_value_missing (t : DataFrameQ) (key : String)
    (h : t.lookup key = none) :
    get_trace_header_value t key = List.replicate (dfNRows t) 0
    ∧ (get_trace_header_value t key).length = dfNRows t
    ∧ (∀ x ∈ get_trace_header_value t key, x = 0)
    ∧ (key = "CDP" → extract_acquisition_info t =
        extract_acquisition_info (("CDP", List.replicate (dfNRows t) 0) :: t)) := by
  have h1 : get_trace_header_value t key = List.replicate (dfNRows t) 0 := by
    simp [get_trace_header_value, h]
  refine ⟨h1, by simp [h1], by simp [h1], fun hk => ?_⟩
  subst hk
  have h2 : get_trace_header_value (("CDP", List.replicate (dfNRows t) 0) :: t)
      "CDP" = List.replicate (dfNRows t) 0 := by
    simp [get_trace_header_value, List.lookup]
  simp only [extract_acquisition_info, h1, h2]

theorem get_trace_header_value_missing_witness :
    get_trace_header_value [("SourceX", [3, 4])] "CDP" = List.replicate 2 0 :=
  (get_trace_header_value_missing [("SourceX", [3, 4])] "CDP" (by decide)).1

/-- C2: when a persisted statistics entry exists for the logical name,
`get_seismic_statistics` returns it unchanged and performs no decode (the
state, including the decode count, is untouched); and calling it twice in
a row yields identical results, the second call changes nothing, and at
most one decode happens across both calls. -/
theorem get_seismic_statistics_memo (env : SegyEnv) (st : CacheState)
    (cur : String) :
    (∀ entry, st.jsonStore.lookup cur = some entry →
      get_seismic_statistics env st cur = (entry, st))
    ∧ (get_seismic_statistics env (get_seismic_statistics env st cur).2 cur).1
        = (get_seismic_statistics env st cur).1
    ∧ (get_seismic_statistics env (get_seismic_statistics env st cur).2 cur).2
        = (get_seismic_statistics env st cur).2
    ∧ (get_seismic_statistics env st cur).2.decodeCount ≤ st.decodeCount + 1 := by
  cases h : st.jsonStore.lookup cur with
  | some entry =>
    refine ⟨fun e he => ?_, ?_, ?_, ?_⟩
    · cases he
      simp [get_seismic_statistics, h]
    · simp [get_seismic_statistics, h]
    · simp [get_seismic_statistics, h]
    · simp [get_seismic_statistics, h]
  | none =>
    refine ⟨fun e he => ?_, ?_, ?_, ?_⟩
    · exact Option.noConfusion he
    · simp [get_seismic_statistics, h, List.lookup]
    · simp [get_seismic_statistics, h, List.lookup]
    · simp [get_seismic_statistics, h]

/-- C3: `__enter__` opens strictly; success classifies 3D; a
`RuntimeError` carrying the "unable to find sorting" signature triggers a
relaxed reopen classified 2D (whose own failure propagates); a
`RuntimeError` without the signature and any non-`RuntimeError` failure
propagate uncaught. -/
theorem enter_extractor_spec (strictOpen relaxedOpen : OpenOutcome) :
    (∀ h, strictOpen = .ok h →
      enter_extractor strictOpen relaxedOpen =
        .ok { is_3d := true, handle := h })
    ∧ (∀ msg, strictOpen = .runtimeError msg →
        strContains "unable to find sorting" msg = true →
        enter_extractor strictOpen relaxedOpen =
          (match relaxedOpen with
           | .ok h => .ok { is_3d := false, handle := h }
           | .runtimeError m => .error (.runtimeError m)
           | .otherError m => .error (.otherError m)))
    ∧ (∀ msg, strictOpen = .runtimeError msg →
        strContains "unable to find sorting" msg = false →
        enter_extractor strictOpen relaxedOpen = .error (.runtimeError msg))
    ∧ (∀ msg, strictOpen = .otherError msg →
        enter_extractor strictOpen relaxedOpen = .error (.otherError msg)) := by
  refine ⟨fun h hh => ?_, fun msg hm hc => ?_, fun msg hm hc => ?_,
    fun msg hm => ?_⟩
  · subst hh; rfl
  · subst hm; simp only [enter_extractor, hc, if_true]
  · subst hm; simp only [enter_extractor, hc, Bool.false_eq_true, if_false]
  · subst hm; rfl

theorem enter_extractor_spec_witness :
    enter_extractor (.runtimeError "unable to find sorting of file x")
        (.ok 7) = .ok { is_3d := false, handle := 7 } := by
  have h := (enter_extractor_spec
    (.runtimeError "unable to find sorting of file x") (.ok 7)).2.1
    "unable to find sorting of file x" rfl (by decide)
  exact h

/-- Concrete evaluation of the float formatting at zero. -/
theorem format_float_zero : format_float 0 = "0" := by
  have h : roundHalfEven (100 * 0) = 0 := by
    norm_num [roundHalfEven]
  simp only [format_float, renderTwoDec, h]
  norm_num
  decide

/-- C5 (the failing input evaluated): on a table whose
`SourceGroupScalar` column has mean exactly zero the code returns the
string `"0"`, not the integer `1` the spec requires: `format_number` is
applied before the `!= 0` test, a string never equals `0` in Python, and
therefore the `else 1` branch can never be taken on any input. -/
theorem extract_scaling_factor_zero_mean :
    extract_scaling_factor [("SourceGroupScalar", [-1, 1])] = .str "0"
    ∧ PyVal.str "0" ≠ PyVal.int 1
    ∧ (∀ t : DataFrameQ, extract_scaling_factor t ≠ .int 1) := by
  refine ⟨?_, by decide, fun t => ?_⟩
  · have hcol : get_trace_header_value
        [("SourceGroupScalar", [-1, 1])] "SourceGroupScalar" = [-1, 1] := by
      simp [get_trace_header_value, List.lookup]
    have hm : seriesMean [(-1 : ℚ), 1] = some 0 := by
      norm_num [seriesMean, listMean, listSum]
    simp only [extract_scaling_factor, hcol, hm, format_number,
      format_float_zero, pyNeZero, if_true]
  · unfold extract_scaling_factor
    cases h : seriesMean (get_trace_header_value t "SourceGroupScalar") with
    | none => simp [pyNeZero]
    | some q => simp [pyNeZero, format_number]

/-- `get_segy_base_name` returns the first registry entry that is a
substring of the requested name. -/
theorem get_segy_base_name_eq_head (registry : List String) (cur : String) :
    get_segy_base_name registry cur
      = (registry.filter (fun n => strContains n cur)).head? := by
  induction registry with
  | nil => rfl
  | cons n rest ih =>
    cases h : strContains n cur with
    | true => simp [get_segy_base_name, List.filter_cons, h]
    | false => simp [get_segy_base_name, List.filter_cons, h, ih]

/-- C6: `process_segy_file` resolves the logical name by substring match
against the registry, first match in registry order winning; no match
fails as `ValueError`; with a match, an existing header cache short-cuts
to statistics, a missing cache is created only when the logical name
equals its resolved base name, and an alias with no cache fails as
`ValueError`. -/
theorem process_segy_file_spec (registry : List String)
    (pq : String → Bool) (cur : String) :
    (get_segy_base_name registry cur
      = (registry.filter (fun n => strContains n cur)).head?)
    ∧ (get_segy_base_name registry cur = none →
        process_segy_file registry pq cur =
          .error (.valueError
            ("No base SEG-Y file matching '" ++ cur ++ "' found.")))
    ∧ (∀ base, get_segy_base_name registry cur = some base →
        (pq cur = true →
          process_segy_file registry pq cur = .ok .statsFromCache)
        ∧ (pq cur = false → cur = base →
            process_segy_file registry pq cur = .ok .statsAfterExtract)
        ∧ (pq cur = false → cur ≠ base →
            process_segy_file registry pq cur =
              .error (.valueError ("Parquet file for " ++ cur ++ " missing.")))) := by
  refine ⟨get_segy_base_name_eq_head registry cur, fun h => ?_,
    fun base hb => ⟨fun hpq => ?_, fun hpq he => ?_, fun hpq hne => ?_⟩⟩
  · simp [process_segy_file, h]
  · simp [process_segy_file, hb, hpq]
  · subst he
    simp [process_segy_file, hb, hpq]
  · simp [process_segy_file, hb, hpq, hne]

theorem process_segy_file_spec_witness :
    process_segy_file ["jequitinhonha"] (fun _ => false)
        "jequitinhonha_filtered" =
      .error (.valueError "Parquet file for jequitinhonha_filtered missing.") := by
  have h := ((process_segy_file_spec ["jequitinhonha"] (fun _ => false)
    "jequitinhonha_filtered").2.2 "jequitinhonha" (by decide)).2.2
    rfl (by decide)
  exact h

theorem consecDiffs_length (l : List ℚ) :
    (consecDiffs l).length = l.length - 1 := by
  cases l with
  | nil => rfl
  | cons x xs =>
    simp [consecDiffs]

theorem listSum_consecDiffs : ∀ l : List ℚ, l ≠ [] →
    listSum (consecDiffs l) = l.getLast?.getD 0 - l.head?.getD 0
  | [], h => absurd rfl h
  | [x], _ => by simp [consecDiffs, listSum]
  | x :: y :: ys, _ => by
    have ih := listSum_consecDiffs (y :: ys) (by simp)
    simp only [consecDiffs, List.tail_cons, List.zipWith_cons_cons] at ih ⊢
    rw [List.getLast?_cons_cons]
    simp only [listSum, ih, List.head?_cons, Option.getD_some]
    ring

/-- C9: the plot direction is `"LR"` ("left-to-right") exactly when the
source-X column has at least two entries and the mean of its successive
differences is positive, and `"RL"` ("right-to-left") in every other
case; moreover the differences telescope, so their sum is last minus
first. -/
theorem plot_direction_spec (t : DataFrameQ) :
    (plot_direction t = "LR" ↔
      2 ≤ (get_trace_header_value t "SourceX").length
      ∧ 0 < listMean (consecDiffs (get_trace_header_value t "SourceX")))
    ∧ (plot_direction t = "LR" ∨ plot_direction t = "RL")
    ∧ (get_trace_header_value t "SourceX" ≠ [] →
      listSum (consecDiffs (get_trace_header_value t "SourceX"))
        = (get_trace_header_value t "SourceX").getLast?.getD 0
          - (get_trace_header_value t "SourceX").head?.getD 0) := by
  refine ⟨?_, ?_, fun h => listSum_consecDiffs _ h⟩
  · have hlen : (consecDiffs (get_trace_header_value t "SourceX")).isEmpty
        = true ↔ (get_trace_header_value t "SourceX").length < 2 := by
      rw [List.isEmpty_iff, ← List.length_eq_zero, consecDiffs_length]
      omega
    unfold plot_direction diffMeanPos
    cases he : (consecDiffs (get_trace_header_value t "SourceX")).isEmpty with
    | true =>
      have h2 : ¬2 ≤ (get_trace_header_value t "SourceX").length := by
        have := hlen.mp he
        omega
      simp [he, h2]
    | false =>
      have h2 : 2 ≤ (get_trace_header_value t "SourceX").length := by
        by_contra hc
        have := hlen.mpr (by omega)
        rw [he] at this
        exact Bool.false_ne_true this
      cases hp : decide
          (0 < listMean (consecDiffs (get_trace_header_value t "SourceX"))) with
      | true => simp [he, h2, of_decide_eq_true hp]
      | false => simp [he, h2, of_decide_eq_false hp]
  · unfold plot_direction
    split
    · exact Or.inl rfl
    · exact Or.inr rfl

theorem lookup_append_missing {β : Type} (t : List (String × β))
    (name : String) (v : β) (h : name ∉ t.map Prod.fst) :
    (t ++ [(name, v)]).lookup name = some v := by
  induction t with
  | nil => simp [List.lookup]
  | cons c rest ih =>
    simp only [List.map_cons, List.mem_cons, not_or] at h
    have hc : (name == c.1) = false := by
      simp [h.1]
    cases c with
    | mk k w =>
      simp only [List.cons_append, List.lookup]
      rw [hc]
      exact ih h.2

/-- C1: the table `read_segy_headers` produces contains a trace-header
field as a column iff that field's scanned mean is non-zero, and a
`trace_index` column is appended whose entries are exactly `0, 1, ...,
nrows - 1` in row order: 0-based, strictly increasing and contiguous. -/
theorem read_segy_headers_spec (scan : List (String × ℚ))
    (scraped : DataFrameQ)
    (hti : "trace_index" ∉ scan.map Prod.fst) :
    (∀ f, f ≠ "trace_index" →
      (f ∈ (read_segy_headers scan scraped).map Prod.fst ↔
        ∃ m, (f, m) ∈ scan ∧ m ≠ 0))
    ∧ (read_segy_headers scan scraped).lookup "trace_index"
        = some (indexColumn (dfNRows scraped))
    ∧ List.Pairwise (fun a b => a < b) (indexColumn (dfNRows scraped))
    ∧ (∀ i, i < dfNRows scraped →
        (indexColumn (dfNRows scraped))[i]? = some (i : ℚ)) := by
  have hkept : ∀ f, f ∈ ((scan.filter (fun e => decide (e.2 ≠ 0))).map
      (fun e => (e.1, (scraped.lookup e.1).getD []))).map Prod.fst ↔
      ∃ m, (f, m) ∈ scan ∧ m ≠ 0 := by
    intro f
    simp only [List.map_map, List.mem_map, Function.comp, List.mem_filter,
      decide_eq_true_eq]
    constructor
    · rintro ⟨⟨a, b⟩, ⟨ha, hb⟩, rfl⟩
      exact ⟨b, ha, hb⟩
    · rintro ⟨m, hm, hm0⟩
      exact ⟨(f, m), ⟨hm, hm0⟩, rfl⟩
  have hnk : "trace_index" ∉ ((scan.filter (fun e => decide (e.2 ≠ 0))).map
      (fun e => (e.1, (scraped.lookup e.1).getD []))).map Prod.fst := by
    intro hc
    obtain ⟨m, hm, _⟩ := (hkept "trace_index").mp hc
    exact hti (List.mem_map_of_mem Prod.fst hm)
  have hassign : read_segy_headers scan scraped =
      ((scan.filter (fun e => decide (e.2 ≠ 0))).map
        (fun e => (e.1, (scraped.lookup e.1).getD []))) ++
      [("trace_index", indexColumn (dfNRows scraped))] := by
    simp only [read_segy_headers, dfAssign, hnk, if_false]
  refine ⟨fun f hf => ?_, ?_, ?_, fun i hi => ?_⟩
  · rw [hassign]
    simp only [List.map_append, List.mem_append, List.map_cons,
      List.map_nil, List.mem_singleton]
    rw [hkept f]
    constructor
    · rintro (h | h)
      · exact h
      · exact absurd h hf
    · exact Or.inl
  · rw [hassign]
    exact lookup_append_missing _ _ _ hnk
  · refine List.Pairwise.map (Nat.cast : ℕ → ℚ) ?_ (List.pairwise_lt_range _)
    intro a b hab
    exact_mod_cast hab
  · rw [indexColumn, List.getElem?_map, List.getElem?_range hi]
    rfl

theorem read_segy_headers_spec_witness :
    (read_segy_headers [("SourceX", 1), ("offset", 0)]
        [("SourceX", [5, 6]), ("offset", [0, 0])]).lookup "trace_index"
      = some (indexColumn
          (dfNRows [("SourceX", [5, 6]), ("offset", [0, 0])])) :=
  (read_segy_headers_spec [("SourceX", 1), ("offset", 0)]
    [("SourceX", [5, 6]), ("offset", [0, 0])] (by decide)).2.1

theorem listSum_nonneg : ∀ l : List ℚ, (∀ x ∈ l, 0 ≤ x) → 0 ≤ listSum l
  | [], _ => le_refl 0
  | x :: xs, h => by
    have hs := listSum_nonneg xs fun y hy => h y (List.mem_cons_of_mem x hy)
    have hx := h x (List.mem_cons_self x xs)
    simp only [listSum]
    linarith

theorem listSum_eq_zero_all : ∀ l : List ℚ, (∀ x ∈ l, 0 ≤ x) →
    listSum l = 0 → ∀ x ∈ l, x = 0
  | [], _, _, x, hx => absurd hx (List.not_mem_nil x)
  | y :: ys, h, hs, x, hx => by
    simp only [listSum] at hs
    have hy := h y (List.mem_cons_self y ys)
    have hsum := listSum_nonneg ys fun z hz => h z (List.mem_cons_of_mem y hz)
    have hs0 : listSum ys = 0 := by linarith
    rcases List.mem_cons.mp hx with rfl | hx2
    · linarith
    · exact listSum_eq_zero_all ys
        (fun z hz => h z (List.mem_cons_of_mem y hz)) hs0 x hx2

theorem listSum_const : ∀ (l : List ℚ) (v : ℚ), (∀ x ∈ l, x = v) →
    listSum l = (l.length : ℚ) * v
  | [], v, _ => by simp [listSum]
  | y :: ys, v, h => by
    have hy := h y (List.mem_cons_self y ys)
    have hs := listSum_const ys v fun z hz => h z (List.mem_cons_of_mem y hz)
    simp only [listSum, List.length_cons, hs, hy]
    push_cast
    ring

theorem listMean_const (l : List ℚ) (v : ℚ) (hne : l ≠ [])
    (h : ∀ x ∈ l, x = v) : listMean l = v := by
  have h0 : l.length ≠ 0 := fun hl => hne (List.length_eq_zero.mp hl)
  have hn : (l.length : ℚ) ≠ 0 := Nat.cast_ne_zero.mpr h0
  rw [listMean, listSum_const l v h, mul_comm, mul_div_assoc, div_self hn,
    mul_one]

/-- The variance of a nonempty list vanishes exactly when all its entries
are equal: the justification for using `np.std(...) != 0` as an
"all CDP values identical" test. -/
theorem listVar_eq_zero_iff (l : List ℚ) (hne : l ≠ []) :
    listVar l = 0 ↔ ∃ v, ∀ x ∈ l, x = v := by
  have h0 : l.length ≠ 0 := fun hl => hne (List.length_eq_zero.mp hl)
  have hn : (l.length : ℚ) ≠ 0 := Nat.cast_ne_zero.mpr h0
  constructor
  · intro hv
    refine ⟨listMean l, fun x hx => ?_⟩
    rw [listVar, listMean, List.length_map] at hv
    have hsum : listSum (l.map (fun x => (x - listMean l) ^ 2)) = 0 := by
      rcases div_eq_zero_iff.mp hv with h | h
      · exact h
      · exact absurd h hn
    have hsq : (x - listMean l) ^ 2 = 0 := by
      refine listSum_eq_zero_all _ (fun y hy => ?_) hsum _
        (List.mem_map_of_mem _ hx)
      obtain ⟨z, _, rfl⟩ := List.mem_map.mp hy
      positivity
    have := (pow_eq_zero_iff (two_ne_zero)).mp hsq
    linarith [sub_eq_zero.mp this]
  · rintro ⟨v, hv⟩
    have hmu : listMean l = v := listMean_const l v hne hv
    have hall : ∀ y ∈ l.map (fun x => (x - listMean l) ^ 2), y = 0 := by
      intro y hy
      obtain ⟨z, hz, rfl⟩ := List.mem_map.mp hy
      rw [hmu, hv z hz]
      ring
    rw [listVar, listMean, listSum_const _ 0 hall, mul_zero, zero_div]

/-- The code's branch condition takes the sentinel branch exactly when
the column is nonempty and all its values coincide. -/
theorem npStdNonzero_false_iff (l : List ℚ) :
    npStdNonzero l = false ↔ (l ≠ [] ∧ ∃ v, ∀ x ∈ l, x = v) := by
  unfold npStdNonzero
  cases hl : l.isEmpty with
  | true =>
    have he : l = [] := List.isEmpty_iff.mp hl
    simp [he]
  | false =>
    have hne : l ≠ [] := by
      intro hh
      rw [hh] at hl
      simp at hl
    simp only [Bool.false_eq_true, if_false, decide_eq_false_iff_not,
      not_not]
    rw [listVar_eq_zero_iff l hne]
    simp [hne]

theorem groupSizes_ne_nil (l : List ℚ) (hne : l ≠ []) :
    groupSizes l ≠ [] := by
  simp [groupSizes, List.map_eq_nil_iff, List.dedup_eq_nil, hne]

/-- C4: the fold metrics of the acquisition info all equal the sentinel
`"Not applicable"` iff the CDP column is nonempty with all values
identical (zero variance); otherwise — when the column is nonempty and
its values are not all identical — they are the formatted mean, maximum
and minimum of the group sizes (the multiplicities of the distinct CDP
values). -/
theorem extract_acquisition_info_spec (t : DataFrameQ) :
    (((extract_acquisition_info t).average_fold = .str "Not applicable"
      ∧ (extract_acquisition_info t).maximum_fold = .str "Not applicable"
      ∧ (extract_acquisition_info t).minimum_fold = .str "Not applicable")
      ↔ (get_trace_header_value t "CDP" ≠ []
         ∧ ∃ v, ∀ x ∈ get_trace_header_value t "CDP", x = v))
    ∧ ((get_trace_header_value t "CDP" ≠ []
        ∧ ¬∃ v, ∀ x ∈ get_trace_header_value t "CDP", x = v) →
      extract_acquisition_info t =
        { average_fold := format_number (.float (listMean
            ((groupSizes (get_trace_header_value t "CDP")).map
              (Nat.cast : ℕ → ℚ))))
          maximum_fold := format_number (.int
            (natListMax (groupSizes (get_trace_header_value t "CDP"))))
          minimum_fold := format_number (.int
            (natListMin (groupSizes (get_trace_header_value t "CDP")))) }) := by
  cases hstd : npStdNonzero (get_trace_header_value t "CDP") with
  | false =>
    have hiff := (npStdNonzero_false_iff _).mp hstd
    constructor
    · simp only [extract_acquisition_info, hstd, Bool.false_eq_true,
        if_false]
      simp [hiff.1, hiff.2]
    · rintro ⟨hne, hno⟩
      exact absurd hiff.2 hno
  | true =>
    have hn : ¬(get_trace_header_value t "CDP" ≠ []
        ∧ ∃ v, ∀ x ∈ get_trace_header_value t "CDP", x = v) := by
      intro hc
      have hf := (npStdNonzero_false_iff _).mpr hc
      rw [hf] at hstd
      exact Bool.false_ne_true hstd
    constructor
    · constructor
      · intro hNA
        simp only [extract_acquisition_info, hstd, if_true] at hNA
        cases hfe : (groupSizes (get_trace_header_value t "CDP")).isEmpty with
        | true => simp [hfe] at hNA
        | false => simp [hfe, format_number] at hNA
      · intro hr
        exact absurd hr hn
    · rintro ⟨hne, hno⟩
      have hfold := groupSizes_ne_nil _ hne
      have hfe : (groupSizes (get_trace_header_value t "CDP")).isEmpty
          = false := by
        cases hgs : groupSizes (get_trace_header_value t "CDP") with
        | nil => exact absurd hgs hfold
        | cons a as => simp [hgs]
      simp only [extract_acquisition_info, hstd, if_true, hfe,
        Bool.false_eq_true, if_false]

/-- C8 counterexample: (a) a sampling-interval field whose value is zero
is NOT skipped — the code converts it to the formatted string `"0"`
before the `value not in [None, 0]` test, which no string fails — and
(b) the enumerated identifier set follows the externally supplied
`dir(segyio.BinField)` listing (here empty vs `["LineNumber"]`), so it is
an open-ended reflection walk, not a fixed in-code catalogue. -/
theorem extract_binary_header_info_cex :
    (("sampling_rate", PyVal.str "0") ∈
      extract_binary_header_info ["Interval"] (fun _ => some 0) true)
    ∧ extract_binary_header_info [] (fun _ => some 5) true ≠
      extract_binary_header_info ["LineNumber"] (fun _ => some 5) true := by
  refine ⟨?_, by decide⟩
  have hs : startsUnderscore "Interval" = false := by decide
  have hn : namesEn "Interval" = "sampling_rate" := by decide
  have h : readBinField (fun _ => some 0) "Interval"
      = some ("sampling_rate", PyVal.str "0") := by
    simp [readBinField, hs, hn, format_number, format_float_zero]
  simp [extract_binary_header_info, h]

/-- C8 (amended): binary-header extraction iterates over the identifiers
the external library exposes (`dir(segyio.BinField)`), skipping
underscore-prefixed names; each remaining identifier is skipped on read
failure, kept renamed with its integer value when non-zero, skipped when
zero — except the sampling-interval field, which is converted from
microseconds to milliseconds and formatted before the zero test and is
therefore always kept when readable; finally a synthetic `data_type`
field is `"3D"` or `"2D"` per the geometry classification, and nothing
else enters the result. -/
theorem extract_binary_header_info_spec (dirFields : List String)
    (binRead : String → Option ℤ) (is3d : Bool) :
    (("data_type", PyVal.str (if is3d then "3D" else "2D")) ∈
      extract_binary_header_info dirFields binRead is3d)
    ∧ (∀ f, startsUnderscore f = true → readBinField binRead f = none)
    ∧ (∀ f, startsUnderscore f = false → binRead f = none →
        readBinField binRead f = none)
    ∧ (∀ f v, startsUnderscore f = false → f ≠ "Interval" →
        binRead f = some v → v ≠ 0 →
        readBinField binRead f = some (namesEn f, .int v))
    ∧ (∀ f, startsUnderscore f = false → f ≠ "Interval" →
        binRead f = some 0 → readBinField binRead f = none)
    ∧ (∀ v, binRead "Interval" = some v →
        readBinField binRead "Interval" =
          some ("sampling_rate", format_number (.float ((v : ℚ) / 1000))))
    ∧ (∀ p, p ∈ extract_binary_header_info dirFields binRead is3d →
        p = ("data_type", PyVal.str (if is3d then "3D" else "2D")) ∨
        ∃ f ∈ dirFields, readBinField binRead f = some p) := by
  refine ⟨?_, fun f hf => ?_, fun f hf hr => ?_, fun f v hf hfi hr hv => ?_,
    fun f hf hfi hr => ?_, fun v hr => ?_, fun p hp => ?_⟩
  · simp [extract_binary_header_info]
  · simp [readBinField, hf]
  · simp [readBinField, hf, hr]
  · simp [readBinField, hf, hfi, hr, hv]
  · simp [readBinField, hf, hfi, hr]
  · have hs : startsUnderscore "Interval" = false := by decide
    have hn : namesEn "Interval" = "sampling_rate" := by decide
    simp [readBinField, hs, hn, hr]
  · rcases List.mem_append.mp hp with h | h
    · obtain ⟨f, hfd, hfp⟩ := List.mem_filterMap.mp h
      exact Or.inr ⟨f, hfd, hfp⟩
    · exact Or.inl (List.mem_singleton.mp h)
